import Mathlib

/-!
Shallow embedding of the romanized-Thai conversion engine of the repository
(src/main.py, and the duplicated engine variant in src/app.py).

Python strings are modelled as `List Char`; Python `None`-returning functions
become `Option`-valued; Python truthiness of an `Optional[str]` value is
modelled by `truthy` (`some s` with `s` nonempty).  Python `sorted`/`list.sort`
with `reverse=True` is a stable descending sort, modelled by the stable
insertion sort `sortDesc`.  Python slicing `l[:k]` (including negative `k`) is
modelled by `pySlice`.
-/

namespace Yuipa

/-- Python `str.lower` on one character (the engine's inputs are ASCII Latin
letters, digits, `?`, and caseless Thai glyphs, so ASCII lowering models it). -/
def pyLowerChar (c : Char) : Char :=
  if 'A' ≤ c ∧ c ≤ 'Z' then Char.ofNat (c.toNat + 32) else c

/-- Python `str.lower` over a whole string. -/
def pyLower (s : List Char) : List Char := s.map pyLowerChar

/-- Python truthiness of an `Optional[str]`: `None` and `""` are falsy. -/
def truthy : Option (List Char) → Bool
  | none => false
  | some s => !s.isEmpty

/-- Python `s.find(pat)` (first index of `pat` as a substring, `none` if absent),
starting the scan at accumulated index `i`. -/
def findSubAux (pat : List Char) : List Char → Nat → Option Nat
  | s, i =>
    if pat.isPrefixOf s then some i
    else
      match s with
      | [] => none
      | _ :: t => findSubAux pat t (i + 1)

/-- Python `s.find(pat)`. -/
def findSub (s pat : List Char) : Option Nat := findSubAux pat s 0

/-- Python slice `l[:k]` for an arbitrary (possibly negative) integer `k`. -/
def pySlice (k : Int) (l : List α) : List α :=
  if k < 0 then l.take (l.length + k).toNat else l.take k.toNat

/-- Python `s.replace(old, new, 1)`: replace the first occurrence only. -/
def pyReplace1 (s old new : List Char) : List Char :=
  match findSub s old with
  | none => s
  | some i => s.take i ++ new ++ s.drop (i + old.length)

/-- One step of stable descending insertion (models the placement performed by
Python's stable `sorted(..., reverse=True)`). -/
def insertDesc (key : α → Nat) (x : α) : List α → List α
  | [] => [x]
  | y :: ys => if key y ≤ key x then x :: y :: ys else y :: insertDesc key x ys

/-- Stable descending sort by `key`, models Python `sorted(l, key=key, reverse=True)`
and `l.sort(key=key, reverse=True)`. -/
def sortDesc (key : α → Nat) : List α → List α
  | [] => []
  | x :: xs => insertDesc key x (sortDesc key xs)

/-- Value lookup in an association list with string keys, first match wins
(Python dict lookup for the tables below, whose keys are unique). -/
def assocLookup (table : List (List Char × α)) (k : List Char) : Option α :=
  (table.find? (fun p => p.1 = k)).map Prod.snd

/-! ## 1. MAPPINGS (src/main.py lines 8-83) -/

/-- `CONSONANT_ONSET` table (insertion order preserved). -/
def CONSONANT_ONSET : List (List Char × List Char) :=
  [ ("kh".data, "ข".data), ("k".data, "ก".data), ("ph".data, "ผ".data), ("p".data, "ป".data),
    ("th".data, "ถ".data), ("t".data, "ต".data), ("ch".data, "ช".data), ("c".data, "จ".data),
    ("j".data, "จ".data), ("b".data, "บ".data), ("d".data, "ด".data), ("f".data, "ฟ".data),
    ("s".data, "ส".data), ("h".data, "ห".data), ("m".data, "ม".data), ("n".data, "น".data),
    ("ng".data, "ง".data), ("r".data, "ร".data), ("l".data, "ล".data), ("w".data, "ว".data),
    ("y".data, "ย".data), ("?".data, "อ".data),
    ("pr".data, "ปร".data), ("phr".data, "พร".data), ("kr".data, "กร".data),
    ("khr".data, "คร".data), ("tr".data, "ตร".data),
    ("pl".data, "ปล".data), ("phl".data, "พล".data), ("kl".data, "กล".data),
    ("khl".data, "คล".data), ("kw".data, "กว".data), ("khw".data, "ขว".data),
    ("hng".data, "หง".data), ("hn".data, "หน".data), ("hm".data, "หม".data),
    ("hy".data, "หย".data), ("hr".data, "หร".data), ("hl".data, "หล".data),
    ("hw".data, "หว".data) ]

/-- `ONSET_KEYS = sorted(CONSONANT_ONSET.keys(), key=len, reverse=True)`. -/
def ONSET_KEYS : List (List Char) :=
  sortDesc List.length (CONSONANT_ONSET.map Prod.fst)

/-- `ALT_ONSET_FORMS` table. -/
def ALT_ONSET_FORMS : List (List Char × List (List Char)) :=
  [ ("th".data, ["ถ".data, "ท".data, "ธ".data, "ฒ".data, "ฐ".data]),
    ("ph".data, ["ผ".data, "พ".data, "ภ".data]),
    ("ch".data, ["ช".data, "ฉ".data, "ฌ".data]),
    ("s".data, ["ส".data, "ซ".data, "ศ".data, "ษ".data]),
    ("h".data, ["ห".data, "ฮ".data]),
    ("y".data, ["ย".data, "ญ".data]),
    ("f".data, ["ฟ".data, "ฝ".data]),
    ("k".data, ["ก".data, "ไก".data]),
    ("kh".data, ["ข".data, "ค".data, "ฆ".data]),
    ("d".data, ["ด".data, "ฎ".data]),
    ("t".data, ["ต".data, "ฏ".data]),
    ("n".data, ["น".data, "ณ".data]),
    ("l".data, ["ล".data, "ฬ".data]) ]

/-- `ALT_CODA_FORMS` table. -/
def ALT_CODA_FORMS : List (List Char × List (List Char)) :=
  [ ("n".data, ["น".data, "ร".data, "ล".data, "ญ".data, "ณ".data, "ฬ".data, "รย์".data]),
    ("t".data, ["ด".data, "ต".data, "ท".data, "ธ".data, "ศ".data, "ษ".data, "ส".data,
                "จ".data, "ช".data, "ซ".data, "ฎ".data, "ฏ".data, "ฐ".data, "ฑ".data,
                "ฒ".data, "ติ".data, "ตุ".data, "ตว์".data]),
    ("p".data, ["บ".data, "ป".data, "พ".data, "ฟ".data, "ภ".data, "พธ์".data]),
    ("k".data, ["ก".data, "ข".data, "ค".data, "ฆ".data, "คร์".data]) ]

/-- `VOWEL_MAP`: roman key to (Pre-Consonant, On-Stack, Post-Consonant) triple,
in source insertion order. -/
def VOWEL_MAP : List (List Char × (List Char × List Char × List Char)) :=
  [ ("a".data, ("".data, "".data, "ะ".data)),
    ("aa".data, ("".data, "".data, "า".data)),
    ("i".data, ("".data, "ิ".data, "".data)),
    ("ii".data, ("".data, "ี".data, "".data)),
    ("u".data, ("".data, "ุ".data, "".data)),
    ("uu".data, ("".data, "ู".data, "".data)),
    ("e".data, ("เ".data, "็".data, "".data)),
    ("ee".data, ("เ".data, "".data, "".data)),
    ("o".data, ("โ".data, "".data, "ะ".data)),
    ("oo".data, ("โ".data, "".data, "".data)),
    ("ae".data, ("แ".data, "".data, "ะ".data)),
    ("aee".data, ("แ".data, "".data, "".data)),
    ("ea".data, ("แ".data, "".data, "ะ".data)),
    ("eaa".data, ("แ".data, "".data, "".data)),
    ("oe".data, ("เ".data, "".data, "อะ".data)),
    ("oee".data, ("เ".data, "".data, "อ".data)),
    ("err".data, ("เ".data, "".data, "อะ".data)),
    ("er".data, ("เ".data, "".data, "อ".data)),
    ("or".data, ("เ".data, "".data, "าะ".data)),
    ("orr".data, ("".data, "".data, "อ".data)),
    ("ia".data, ("เ".data, "ี".data, "ย".data)),
    ("ua".data, ("".data, "ั".data, "ว".data)),
    ("ai".data, ("ไ".data, "".data, "".data)),
    ("ay".data, ("ไ".data, "".data, "".data)),
    ("aw".data, ("เ".data, "".data, "า".data)),
    ("uea".data, ("เ".data, "ื".data, "อ".data)),
    ("am".data, ("".data, "".data, "ำ".data)) ]

/-- `VOWEL_KEYS = sorted(VOWEL_MAP.keys(), key=len, reverse=True)`. -/
def VOWEL_KEYS : List (List Char) :=
  sortDesc List.length (VOWEL_MAP.map Prod.fst)

/-- `TONE_MAP`: tone digit to tone-mark glyph. -/
def TONE_MAP : List (List Char × List Char) :=
  [ ("1".data, "".data), ("2".data, "่".data), ("3".data, "้".data),
    ("4".data, "๊".data), ("5".data, "๋".data) ]

/-- `CODA_MAP`: coda key to final-consonant glyph. -/
def CODA_MAP : List (List Char × List Char) :=
  [ ("ng".data, "ง".data), ("k".data, "ก".data), ("t".data, "ด".data), ("p".data, "บ".data),
    ("m".data, "ม".data), ("n".data, "น".data), ("w".data, "ว".data), ("y".data, "ย".data) ]

/-- `CODA_KEYS = sorted(CODA_MAP.keys(), key=len, reverse=True)`. -/
def CODA_KEYS : List (List Char) :=
  sortDesc List.length (CODA_MAP.map Prod.fst)

/-! ## 2. CORE CONVERSION (src/main.py lines 89-186) -/

/-- `split_tone(s)`: if the last character is a tone digit, strip it and return
the corresponding tone glyph. -/
def splitTone (s : List Char) : List Char × List Char :=
  match s.getLast? with
  | some c =>
    match assocLookup TONE_MAP [c] with
    | some t => (s.dropLast, t)
    | none => (s, [])
  | none => (s, [])

/-- `match_prefix(keys, s)`: first key in `keys` that is a prefix of `s`,
returned with the rest of `s`; `("", s)` if none matches. -/
def matchPref (keys : List (List Char)) (s : List Char) : List Char × List Char :=
  match keys with
  | [] => ([], s)
  | k :: rest => if k.isPrefixOf s then (k, s.drop k.length) else matchPref rest s

/-- The loop body of `match_vowel(s)`: first key (in `keys` order) found as a
substring of `s`, with the text before and after the match. -/
def matchVowelAux (keys : List (List Char)) (s : List Char) :
    List Char × List Char × List Char :=
  match keys with
  | [] => ([], s, [])
  | v :: rest =>
    match findSub s v with
    | some idx => (v, s.take idx, s.drop (idx + v.length))
    | none => matchVowelAux rest s

/-- `match_vowel(s)`: scan `VOWEL_KEYS` longest-first for a substring match. -/
def matchVowel (s : List Char) : List Char × List Char × List Char :=
  matchVowelAux VOWEL_KEYS s

/-- The loop body of `match_coda(s)`: first key in `keys` that is a suffix of `s`. -/
def matchCodaAux (keys : List (List Char)) (s : List Char) : List Char × List Char :=
  match keys with
  | [] => ([], s)
  | k :: rest =>
    if k.isSuffixOf s then (k, s.take (s.length - k.length)) else matchCodaAux rest s

/-- `match_coda(s)`: scan `CODA_KEYS` longest-first for a suffix match. -/
def matchCoda (s : List Char) : List Char × List Char :=
  matchCodaAux CODA_KEYS s

/-- `assemble(onset_thai, vowel_key, tone)`: strict glyph order
Pre-Vowel + Consonant(s) + Stacking-Vowel + Tone + Post-Vowel; on a two-glyph
cluster, the tone sits on the second consonant glyph. -/
def assemble (onsetThai : List Char) (vowelKey : List Char) (tone : List Char) :
    List Char :=
  let o := if onsetThai.isEmpty then ("ก".data) else onsetThai
  let pmp := (assocLookup VOWEL_MAP vowelKey).getD ([], [], [])
  if 1 < o.length then pmp.1 ++ o.take 2 ++ pmp.2.1 ++ tone ++ pmp.2.2
  else pmp.1 ++ o ++ pmp.2.1 ++ tone ++ pmp.2.2

/-- `convert_syllable(roman)`: phonetic Thai string, or `none` for an invalid
structure, with the three special spelling rules of src/main.py lines 148-168. -/
def convertSyllable (roman0 : List Char) : Option (List Char) :=
  let roman := pyLower roman0
  if roman.isEmpty then some [] else
  let ct := splitTone roman
  let core := ct.1
  let tone := ct.2
  let vba := matchVowel core
  let vowelKey := vba.1
  let before := vba.2.1
  let after := vba.2.2
  if vowelKey.isEmpty then
    let om := matchPref ONSET_KEYS core
    if !om.2.isEmpty then none
    else
      let onsetThai := (assocLookup CONSONANT_ONSET om.1).getD []
      if 1 < onsetThai.length then some (onsetThai.take 2 ++ tone)
      else some (onsetThai ++ tone)
  else
    let onsetKey := (matchPref ONSET_KEYS before).1
    let onsetThai := (assocLookup CONSONANT_ONSET onsetKey).getD []
    let codaKey := (matchCoda after).1
    let codaThai := (assocLookup CODA_MAP codaKey).getD []
    if vowelKey = ("o".data) ∧ ¬codaThai.isEmpty then
      let o := if onsetThai.isEmpty then ("ก".data) else onsetThai
      if 1 < o.length then some (o.take 2 ++ tone ++ codaThai)
      else some (o ++ tone ++ codaThai)
    else if vowelKey = ("a".data) ∧ ¬codaThai.isEmpty then
      let o := if onsetThai.isEmpty then ("ก".data) else onsetThai
      if 1 < o.length then some (o.take 2 ++ ("ั".data) ++ tone ++ codaThai)
      else some (o ++ ("ั".data) ++ tone ++ codaThai)
    else if (vowelKey = ("er".data) ∨ vowelKey = ("oee".data)) ∧
        (codaThai = ("ม".data) ∨ codaThai = ("น".data) ∨ codaThai = ("ง".data)) then
      let o := if onsetThai.isEmpty then ("ก".data) else onsetThai
      if 1 < o.length then some (("เ".data) ++ o.take 2 ++ ("ิ".data) ++ tone ++ codaThai)
      else some (("เ".data) ++ o ++ ("ิ".data) ++ tone ++ codaThai)
    else
      some (assemble onsetThai vowelKey tone ++ codaThai)

/-- The `for i in range(len(roman), 1, -1)` loop of `recursive_split`, counting
`i` down; `rec` is the recursive call used on the remainder. -/
def rsTry (rec : List Char → Option (List Char)) (roman : List Char) :
    Nat → Option (List Char)
  | 0 => none
  | 1 => none
  | i + 2 =>
    let res := convertSyllable (roman.take (i + 2))
    if truthy res then
      let r := res.getD []
      let remainder := roman.drop (i + 2)
      if remainder.isEmpty then some r
      else
        let remRes := rec remainder
        if truthy remRes then some (r ++ remRes.getD [])
        else rsTry rec roman (i + 1)
    else rsTry rec roman (i + 1)

/-- Fuelled form of `recursive_split` (the remainder passed to the recursive
call is strictly shorter, so fuel `len + 1` always suffices; see
`rsFuel_fuel_irrelevant`). -/
def rsFuel : Nat → List Char → Option (List Char)
  | 0, _ => none
  | f + 1, roman =>
    if roman.isEmpty then some []
    else rsTry (rsFuel f) roman roman.length

/-- `recursive_split(roman)`: split a long string into valid syllables
recursively, greedily trying the longest prefix first. -/
def recursiveSplit (roman : List Char) : Option (List Char) :=
  rsFuel (roman.length + 1) roman

/-! ## 3. DICTIONARY + COMPOUND WORDS (src/main.py lines 192-266) -/

/-- The `DictEntry` dataclass: `roman`, `thai`, `freq`. -/
structure DictEntry where
  roman : List Char
  thai : List Char
  freq : Nat
deriving DecidableEq, Repr

/-- `BASE_DICTIONARY`. -/
def BASE_DICTIONARY : List DictEntry :=
  [ ⟨"khon3".data, "คน".data, 100⟩, ⟨"khoon3".data, "คุณ".data, 90⟩,
    ⟨"khao3".data, "เขา".data, 80⟩, ⟨"baan3".data, "บ้าน".data, 95⟩,
    ⟨"di1".data, "ดี".data, 85⟩, ⟨"phuean3".data, "เพื่อน".data, 90⟩,
    ⟨"er".data, "เออ".data, 120⟩, ⟨"err".data, "เออะ".data, 110⟩,
    ⟨"dern".data, "เดิน".data, 200⟩ ]

/-- `COMPOUND_WORDS` (irregular/compound words and pseudo-clusters). -/
def COMPOUND_WORDS : List DictEntry :=
  [ ⟨"khanom".data, "ขนม".data, 500⟩,
    ⟨"?aacaan".data, "อาจารย์".data, 500⟩,
    ⟨"aacaan".data, "อาจารย์".data, 500⟩,
    ⟨"ajarn".data, "อาจารย์".data, 500⟩,
    ⟨"?aahaan".data, "อาหาร".data, 500⟩,
    ⟨"aahaan".data, "อาหาร".data, 500⟩,
    ⟨"?arory".data, "อร่อย".data, 500⟩,
    ⟨"arory".data, "อร่อย".data, 500⟩,
    ⟨"aroy".data, "อร่อย".data, 450⟩,
    ⟨"aroi".data, "อร่อย".data, 450⟩,
    ⟨"phuying".data, "ผู้หญิง".data, 500⟩,
    ⟨"sawatdii".data, "สวัสดี".data, 1000⟩,
    ⟨"sabay".data, "สบาย".data, 400⟩,
    ⟨"sanuk".data, "สนุก".data, 400⟩,
    ⟨"sanam".data, "สนาม".data, 300⟩,
    ⟨"arak".data, "อรักษ์".data, 300⟩,
    ⟨"talaat".data, "ตลาด".data, 300⟩,
    ⟨"thalay".data, "ทะเล".data, 300⟩,
    ⟨"welaa".data, "เวลา".data, 300⟩,
    ⟨"naka".data, "นะคะ".data, 300⟩,
    ⟨"khrap".data, "ครับ".data, 300⟩,
    ⟨"sabaay".data, "สบาย".data, 400⟩,
    ⟨"sadaeng".data, "แสดง".data, 350⟩,
    ⟨"sathaanii".data, "สถานี".data, 350⟩,
    ⟨"satrii".data, "สตรี".data, 300⟩,
    ⟨"thanon".data, "ถนน".data, 450⟩,
    ⟨"samut".data, "สมุด".data, 350⟩,
    ⟨"samoe".data, "เสมอ".data, 350⟩,
    ⟨"sanaam".data, "สนาม".data, 350⟩,
    ⟨"chalaat".data, "ฉลาด".data, 350⟩,
    ⟨"phanaek".data, "แผนก".data, 300⟩,
    ⟨"chalaam".data, "ฉลาม".data, 300⟩,
    ⟨"khaya".data, "ขยะ".data, 300⟩,
    ⟨"sara".data, "สระ".data, 300⟩,
    ⟨"sataem".data, "สแตมป์".data, 250⟩,
    ⟨"khamooy".data, "ขโมย".data, 350⟩,
    ⟨"samaakhom".data, "สมาคม".data, 300⟩,
    ⟨"samaachik".data, "สมาชิก".data, 300⟩,
    ⟨"samaathi".data, "สมาธิ".data, 300⟩ ]

/-- `AI_IRREGULARS`. -/
def AI_IRREGULARS : List DictEntry :=
  [ ⟨"cay".data, "ใจ".data, 200⟩, ⟨"khray".data, "ใคร".data, 200⟩,
    ⟨"may".data, "ใหม่".data, 200⟩, ⟨"hay".data, "ให้".data, 200⟩,
    ⟨"chay".data, "ใช่".data, 200⟩ ]

/-- `VOWEL_SUGGESTIONS` (note the two entries sharing roman form `a`). -/
def VOWEL_SUGGESTIONS : List DictEntry :=
  [ ⟨"a".data, "อะ".data, 150⟩, ⟨"a".data, "อา".data, 140⟩,
    ⟨"ai".data, "ไอ".data, 130⟩, ⟨"ay".data, "ไอ".data, 130⟩ ]

/-- `DICTIONARY = BASE_DICTIONARY + COMPOUND_WORDS + AI_IRREGULARS + VOWEL_SUGGESTIONS`. -/
def DICTIONARY : List DictEntry :=
  BASE_DICTIONARY ++ COMPOUND_WORDS ++ AI_IRREGULARS ++ VOWEL_SUGGESTIONS

/-- `DICT_LOOKUP = {e.roman.lower(): e.thai for e in DICTIONARY}`: Python dict
comprehension, so the last entry with a given key wins; modelled by searching
the reversed sequence. -/
def dictLookup (k : List Char) : Option (List Char) :=
  (DICTIONARY.reverse.find? (fun e => pyLower e.roman = k)).map DictEntry.thai

/-- `convert_token(token)`: Dictionary, then single syllable, then recursive
split, then the `"?"` sentinel. -/
def convertToken (token0 : List Char) : List Char :=
  let token := pyLower token0
  match dictLookup token with
  | some v => v
  | none =>
    let syl := convertSyllable token
    if truthy syl then syl.getD []
    else
      let compound := recursiveSplit token
      if truthy compound then compound.getD []
      else ("?".data)

/-- `convert_phrase(text)`: whitespace split, per-token conversion, space join. -/
def convertPhrase (text : List Char) : List Char :=
  List.intercalate (" ".data) ((text.splitOn ' ').filter (fun t => !t.isEmpty)
    |>.map convertToken)

/-- `simple_distance(a, b)` of src/main.py: lowercase both, `999` when the
lengths differ by more than 2, else positional mismatches plus the length
difference. -/
def simpleDistance (a0 b0 : List Char) : Nat :=
  let a := pyLower a0
  let b := pyLower b0
  if 2 < Nat.dist a.length b.length then 999
  else mismatchCount a b + Nat.dist a.length b.length
where
  /-- Count of positions (up to the shorter length) where the strings differ. -/
  mismatchCount : List Char → List Char → Nat
    | x :: xs, y :: ys => (if x = y then 0 else 1) + mismatchCount xs ys
    | _, _ => 0

/-- `alt_onset_suggestions(buffer)`: onset-consonant variants (weight 40). -/
def altOnsetSuggestions (buffer : List Char) : List DictEntry :=
  let roman := pyLower buffer
  let core := (splitTone roman).1
  let vba := matchVowel core
  let vowelKey := vba.1
  let before := vba.2.1
  let romanOnset :=
    if vowelKey.isEmpty ∧ before.isEmpty then (matchPref ONSET_KEYS core).1
    else (matchPref ONSET_KEYS before).1
  match assocLookup ALT_ONSET_FORMS romanOnset with
  | none => []
  | some alts =>
    let defaultThai := (assocLookup CONSONANT_ONSET romanOnset).getD []
    let baseThai := convertToken buffer
    if baseThai.isEmpty ∨ baseThai = ("?".data) then []
    else
      (alts.filter (fun alt => alt ≠ defaultThai)).map
        (fun alt => ⟨buffer, pyReplace1 baseThai defaultThai alt, 40⟩)

/-- `alt_coda_suggestions(buffer)`: coda-consonant variants (weight 35). -/
def altCodaSuggestions (buffer : List Char) : List DictEntry :=
  let roman := pyLower buffer
  let core := (splitTone roman).1
  let vba := matchVowel core
  let vowelKey := vba.1
  let after := vba.2.2
  if vowelKey.isEmpty then []
  else
    let codaKey := (matchCoda after).1
    match assocLookup ALT_CODA_FORMS codaKey with
    | none => []
    | some alts =>
      let defaultCoda := (assocLookup CODA_MAP codaKey).getD []
      let baseThai := convertToken buffer
      if baseThai.isEmpty ∨ baseThai = ("?".data) ∨ ¬defaultCoda.isSuffixOf baseThai then []
      else
        let baseStem := baseThai.take (baseThai.length - defaultCoda.length)
        (alts.filter (fun alt => alt ≠ defaultCoda)).map
          (fun alt => ⟨buffer, baseStem ++ alt, 35⟩)

/-- The `seen`/`add` deduplication loop of `suggest`: keep the first entry for
each `(roman, thai)` pair, threading the `seen` set over the whole sequence. -/
def dedupKey (seen : List (List Char × List Char)) :
    List DictEntry → List DictEntry
  | [] => []
  | e :: rest =>
    if (e.roman, e.thai) ∈ seen then dedupKey seen rest
    else e :: dedupKey ((e.roman, e.thai) :: seen) rest

/-- The tone-stripped query core of `suggest`:
`q_core = q[:-1] if q[-1] in "12345" else q` (for nonempty `q`). -/
def qCore (q : List Char) : List Char :=
  match q.getLast? with
  | some c => if c ∈ ("12345".data) then q.dropLast else q
  | none => q

/-- The `exact_prefix` candidate source of `suggest` in src/main.py. -/
def exactPrefSrc (qc : List Char) : List DictEntry :=
  DICTIONARY.filter (fun e => qc.isPrefixOf e.roman)

/-- The `fuzzy` candidate source of `suggest` in src/main.py:
entries with `0 < simple_distance(q_core, e.roman) <= 1`. -/
def fuzzySrc (qc : List Char) : List DictEntry :=
  DICTIONARY.filter (fun e =>
    0 < simpleDistance qc e.roman ∧ simpleDistance qc e.roman ≤ 1)

/-- The deduplicated `results` list of `suggest` in src/main.py (the four `add`
calls over a shared `seen` set). -/
def suggestResults (buffer : List Char) : List DictEntry :=
  let q := pyLower buffer
  let qc := qCore q
  dedupKey []
    (exactPrefSrc qc ++ fuzzySrc qc ++ altOnsetSuggestions buffer ++
      altCodaSuggestions buffer)

/-- `suggest(buffer, max_suggestions)` of src/main.py: candidate merge, stable
descending sort by `freq`, then `results[:max_suggestions]`. -/
def suggest (buffer : List Char) (maxSuggestions : Int := 8) : List DictEntry :=
  let q := pyLower buffer
  if q.isEmpty then []
  else pySlice maxSuggestions (sortDesc DictEntry.freq (suggestResults buffer))

/-! ## The duplicated engine variant of src/app.py.

The tables and the conversion chain (`convert_syllable`, `recursive_split`,
`convert_token`) are textually duplicated in src/app.py; they are embedded
again here so that the two variants can be compared (claim C10).  The
`suggest` of src/app.py differs from the one in src/main.py: it prepends the
base-conversion pseudo-entry of weight 999, and its local `simple_distance`
has no length cutoff and no lowering. -/

namespace App

/-- `CONSONANT_ONSET` of src/app.py (same content as in src/main.py). -/
def CONSONANT_ONSET : List (List Char × List Char) :=
  [ ("kh".data, "ข".data), ("k".data, "ก".data), ("ph".data, "ผ".data), ("p".data, "ป".data),
    ("th".data, "ถ".data), ("t".data, "ต".data), ("ch".data, "ช".data), ("c".data, "จ".data),
    ("j".data, "จ".data), ("b".data, "บ".data), ("d".data, "ด".data), ("f".data, "ฟ".data),
    ("s".data, "ส".data), ("h".data, "ห".data), ("m".data, "ม".data), ("n".data, "น".data),
    ("ng".data, "ง".data), ("r".data, "ร".data), ("l".data, "ล".data), ("w".data, "ว".data),
    ("y".data, "ย".data), ("?".data, "อ".data),
    ("pr".data, "ปร".data), ("phr".data, "พร".data), ("kr".data, "กร".data),
    ("khr".data, "คร".data), ("tr".data, "ตร".data),
    ("pl".data, "ปล".data), ("phl".data, "พล".data), ("kl".data, "กล".data),
    ("khl".data, "คล".data), ("kw".data, "กว".data), ("khw".data, "ขว".data),
    ("hng".data, "หง".data), ("hn".data, "หน".data), ("hm".data, "หม".data),
    ("hy".data, "หย".data), ("hr".data, "หร".data), ("hl".data, "หล".data),
    ("hw".data, "หว".data) ]

/-- `ONSET_KEYS` of src/app.py. -/
def ONSET_KEYS : List (List Char) :=
  sortDesc List.length (CONSONANT_ONSET.map Prod.fst)

/-- `ALT_ONSET_FORMS` of src/app.py. -/
def ALT_ONSET_FORMS : List (List Char × List (List Char)) :=
  [ ("th".data, ["ถ".data, "ท".data, "ธ".data, "ฒ".data, "ฐ".data]),
    ("ph".data, ["ผ".data, "พ".data, "ภ".data]),
    ("ch".data, ["ช".data, "ฉ".data, "ฌ".data]),
    ("s".data, ["ส".data, "ซ".data, "ศ".data, "ษ".data]),
    ("h".data, ["ห".data, "ฮ".data]),
    ("y".data, ["ย".data, "ญ".data]),
    ("f".data, ["ฟ".data, "ฝ".data]),
    ("k".data, ["ก".data, "ไก".data]),
    ("kh".data, ["ข".data, "ค".data, "ฆ".data]),
    ("d".data, ["ด".data, "ฎ".data]),
    ("t".data, ["ต".data, "ฏ".data]),
    ("n".data, ["น".data, "ณ".data]),
    ("l".data, ["ล".data, "ฬ".data]) ]

/-- `ALT_CODA_FORMS` of src/app.py. -/
def ALT_CODA_FORMS : List (List Char × List (List Char)) :=
  [ ("n".data, ["น".data, "ร".data, "ล".data, "ญ".data, "ณ".data, "ฬ".data, "รย์".data]),
    ("t".data, ["ด".data, "ต".data, "ท".data, "ธ".data, "ศ".data, "ษ".data, "ส".data,
                "จ".data, "ช".data, "ซ".data, "ฎ".data, "ฏ".data, "ฐ".data, "ฑ".data,
                "ฒ".data, "ติ".data, "ตุ".data, "ตว์".data]),
    ("p".data, ["บ".data, "ป".data, "พ".data, "ฟ".data, "ภ".data, "พธ์".data]),
    ("k".data, ["ก".data, "ข".data, "ค".data, "ฆ".data, "คร์".data]) ]

/-- `VOWEL_MAP` of src/app.py (same keys in the same insertion order). -/
def VOWEL_MAP : List (List Char × (List Char × List Char × List Char)) :=
  [ ("a".data, ("".data, "".data, "ะ".data)),
    ("aa".data, ("".data, "".data, "า".data)),
    ("i".data, ("".data, "ิ".data, "".data)),
    ("ii".data, ("".data, "ี".data, "".data)),
    ("u".data, ("".data, "ุ".data, "".data)),
    ("uu".data, ("".data, "ู".data, "".data)),
    ("e".data, ("เ".data, "็".data, "".data)),
    ("ee".data, ("เ".data, "".data, "".data)),
    ("o".data, ("โ".data, "".data, "ะ".data)),
    ("oo".data, ("โ".data, "".data, "".data)),
    ("ae".data, ("แ".data, "".data, "ะ".data)),
    ("aee".data, ("แ".data, "".data, "".data)),
    ("ea".data, ("แ".data, "".data, "ะ".data)),
    ("eaa".data, ("แ".data, "".data, "".data)),
    ("oe".data, ("เ".data, "".data, "อะ".data)),
    ("oee".data, ("เ".data, "".data, "อ".data)),
    ("err".data, ("เ".data, "".data, "อะ".data)),
    ("er".data, ("เ".data, "".data, "อ".data)),
    ("or".data, ("เ".data, "".data, "าะ".data)),
    ("orr".data, ("".data, "".data, "อ".data)),
    ("ia".data, ("เ".data, "ี".data, "ย".data)),
    ("ua".data, ("".data, "ั".data, "ว".data)),
    ("ai".data, ("ไ".data, "".data, "".data)),
    ("ay".data, ("ไ".data, "".data, "".data)),
    ("aw".data, ("เ".data, "".data, "า".data)),
    ("uea".data, ("เ".data, "ื".data, "อ".data)),
    ("am".data, ("".data, "".data, "ำ".data)) ]

/-- `VOWEL_KEYS` of src/app.py. -/
def VOWEL_KEYS : List (List Char) :=
  sortDesc List.length (VOWEL_MAP.map Prod.fst)

/-- `TONE_MAP` of src/app.py. -/
def TONE_MAP : List (List Char × List Char) :=
  [ ("1".data, "".data), ("2".data, "่".data), ("3".data, "้".data),
    ("4".data, "๊".data), ("5".data, "๋".data) ]

/-- `CODA_MAP` of src/app.py. -/
def CODA_MAP : List (List Char × List Char) :=
  [ ("ng".data, "ง".data), ("k".data, "ก".data), ("t".data, "ด".data), ("p".data, "บ".data),
    ("m".data, "ม".data), ("n".data, "น".data), ("w".data, "ว".data), ("y".data, "ย".data) ]

/-- `CODA_KEYS` of src/app.py. -/
def CODA_KEYS : List (List Char) :=
  sortDesc List.length (CODA_MAP.map Prod.fst)

/-- `split_tone` of src/app.py. -/
def splitTone (s : List Char) : List Char × List Char :=
  match s.getLast? with
  | some c =>
    match assocLookup TONE_MAP [c] with
    | some t => (s.dropLast, t)
    | none => (s, [])
  | none => (s, [])

/-- `match_prefix` of src/app.py. -/
def matchPref (keys : List (List Char)) (s : List Char) : List Char × List Char :=
  match keys with
  | [] => ([], s)
  | k :: rest => if k.isPrefixOf s then (k, s.drop k.length) else matchPref rest s

/-- The loop body of `match_vowel` of src/app.py. -/
def matchVowelAux (keys : List (List Char)) (s : List Char) :
    List Char × List Char × List Char :=
  match keys with
  | [] => ([], s, [])
  | v :: rest =>
    match findSub s v with
    | some idx => (v, s.take idx, s.drop (idx + v.length))
    | none => matchVowelAux rest s

/-- `match_vowel` of src/app.py. -/
def matchVowel (s : List Char) : List Char × List Char × List Char :=
  matchVowelAux VOWEL_KEYS s

/-- The loop body of `match_coda` of src/app.py. -/
def matchCodaAux (keys : List (List Char)) (s : List Char) : List Char × List Char :=
  match keys with
  | [] => ([], s)
  | k :: rest =>
    if k.isSuffixOf s then (k, s.take (s.length - k.length)) else matchCodaAux rest s

/-- `match_coda` of src/app.py. -/
def matchCoda (s : List Char) : List Char × List Char :=
  matchCodaAux CODA_KEYS s

/-- `assemble` of src/app.py. -/
def assemble (onsetThai : List Char) (vowelKey : List Char) (tone : List Char) :
    List Char :=
  let o := if onsetThai.isEmpty then ("ก".data) else onsetThai
  let pmp := (assocLookup VOWEL_MAP vowelKey).getD ([], [], [])
  if 1 < o.length then pmp.1 ++ o.take 2 ++ pmp.2.1 ++ tone ++ pmp.2.2
  else pmp.1 ++ o ++ pmp.2.1 ++ tone ++ pmp.2.2

/-- `convert_syllable` of src/app.py. -/
def convertSyllable (roman0 : List Char) : Option (List Char) :=
  let roman := pyLower roman0
  if roman.isEmpty then some [] else
  let ct := splitTone roman
  let core := ct.1
  let tone := ct.2
  let vba := matchVowel core
  let vowelKey := vba.1
  let before := vba.2.1
  let after := vba.2.2
  if vowelKey.isEmpty then
    let om := matchPref ONSET_KEYS core
    if !om.2.isEmpty then none
    else
      let onsetThai := (assocLookup CONSONANT_ONSET om.1).getD []
      if 1 < onsetThai.length then some (onsetThai.take 2 ++ tone)
      else some (onsetThai ++ tone)
  else
    let onsetKey := (matchPref ONSET_KEYS before).1
    let onsetThai := (assocLookup CONSONANT_ONSET onsetKey).getD []
    let codaKey := (matchCoda after).1
    let codaThai := (assocLookup CODA_MAP codaKey).getD []
    if vowelKey = ("o".data) ∧ ¬codaThai.isEmpty then
      let o := if onsetThai.isEmpty then ("ก".data) else onsetThai
      if 1 < o.length then some (o.take 2 ++ tone ++ codaThai)
      else some (o ++ tone ++ codaThai)
    else if vowelKey = ("a".data) ∧ ¬codaThai.isEmpty then
      let o := if onsetThai.isEmpty then ("ก".data) else onsetThai
      if 1 < o.length then some (o.take 2 ++ ("ั".data) ++ tone ++ codaThai)
      else some (o ++ ("ั".data) ++ tone ++ codaThai)
    else if (vowelKey = ("er".data) ∨ vowelKey = ("oee".data)) ∧
        (codaThai = ("ม".data) ∨ codaThai = ("น".data) ∨ codaThai = ("ง".data)) then
      let o := if onsetThai.isEmpty then ("ก".data) else onsetThai
      if 1 < o.length then some (("เ".data) ++ o.take 2 ++ ("ิ".data) ++ tone ++ codaThai)
      else some (("เ".data) ++ o ++ ("ิ".data) ++ tone ++ codaThai)
    else
      some (assemble onsetThai vowelKey tone ++ codaThai)

/-- The prefix loop of `recursive_split` of src/app.py. -/
def rsTry (rec : List Char → Option (List Char)) (roman : List Char) :
    Nat → Option (List Char)
  | 0 => none
  | 1 => none
  | i + 2 =>
    let res := convertSyllable (roman.take (i + 2))
    if truthy res then
      let r := res.getD []
      let remainder := roman.drop (i + 2)
      if remainder.isEmpty then some r
      else
        let remRes := rec remainder
        if truthy remRes then some (r ++ remRes.getD [])
        else rsTry rec roman (i + 1)
    else rsTry rec roman (i + 1)

/-- Fuelled form of `recursive_split` of src/app.py. -/
def rsFuel : Nat → List Char → Option (List Char)
  | 0, _ => none
  | f + 1, roman =>
    if roman.isEmpty then some []
    else rsTry (rsFuel f) roman roman.length

/-- `recursive_split` of src/app.py. -/
def recursiveSplit (roman : List Char) : Option (List Char) :=
  rsFuel (roman.length + 1) roman

/-- `BASE_DICTIONARY` of src/app.py. -/
def BASE_DICTIONARY : List DictEntry :=
  [ ⟨"khon3".data, "คน".data, 100⟩, ⟨"khoon3".data, "คุณ".data, 90⟩,
    ⟨"khao3".data, "เขา".data, 80⟩, ⟨"baan3".data, "บ้าน".data, 95⟩,
    ⟨"di1".data, "ดี".data, 85⟩, ⟨"phuean3".data, "เพื่อน".data, 90⟩,
    ⟨"er".data, "เออ".data, 120⟩, ⟨"err".data, "เออะ".data, 110⟩,
    ⟨"dern".data, "เดิน".data, 200⟩ ]

/-- `COMPOUND_WORDS` of src/app.py. -/
def COMPOUND_WORDS : List DictEntry :=
  [ ⟨"khanom".data, "ขนม".data, 500⟩,
    ⟨"?aacaan".data, "อาจารย์".data, 500⟩,
    ⟨"aacaan".data, "อาจารย์".data, 500⟩,
    ⟨"ajarn".data, "อาจารย์".data, 500⟩,
    ⟨"?aahaan".data, "อาหาร".data, 500⟩,
    ⟨"aahaan".data, "อาหาร".data, 500⟩,
    ⟨"?arory".data, "อร่อย".data, 500⟩,
    ⟨"arory".data, "อร่อย".data, 500⟩,
    ⟨"aroy".data, "อร่อย".data, 450⟩,
    ⟨"aroi".data, "อร่อย".data, 450⟩,
    ⟨"phuying".data, "ผู้หญิง".data, 500⟩,
    ⟨"sawatdii".data, "สวัสดี".data, 1000⟩,
    ⟨"sabay".data, "สบาย".data, 400⟩,
    ⟨"sanuk".data, "สนุก".data, 400⟩,
    ⟨"sanam".data, "สนาม".data, 300⟩,
    ⟨"arak".data, "อรักษ์".data, 300⟩,
    ⟨"talaat".data, "ตลาด".data, 300⟩,
    ⟨"thalay".data, "ทะเล".data, 300⟩,
    ⟨"welaa".data, "เวลา".data, 300⟩,
    ⟨"naka".data, "นะคะ".data, 300⟩,
    ⟨"khrap".data, "ครับ".data, 300⟩,
    ⟨"sabaay".data, "สบาย".data, 400⟩,
    ⟨"sadaeng".data, "แสดง".data, 350⟩,
    ⟨"sathaanii".data, "สถานี".data, 350⟩,
    ⟨"satrii".data, "สตรี".data, 300⟩,
    ⟨"thanon".data, "ถนน".data, 450⟩,
    ⟨"samut".data, "สมุด".data, 350⟩,
    ⟨"samoe".data, "เสมอ".data, 350⟩,
    ⟨"sanaam".data, "สนาม".data, 350⟩,
    ⟨"chalaat".data, "ฉลาด".data, 350⟩,
    ⟨"phanaek".data, "แผนก".data, 300⟩,
    ⟨"chalaam".data, "ฉลาม".data, 300⟩,
    ⟨"khaya".data, "ขยะ".data, 300⟩,
    ⟨"sara".data, "สระ".data, 300⟩,
    ⟨"sataem".data, "สแตมป์".data, 250⟩,
    ⟨"khamooy".data, "ขโมย".data, 350⟩,
    ⟨"samaakhom".data, "สมาคม".data, 300⟩,
    ⟨"samaachik".data, "สมาชิก".data, 300⟩,
    ⟨"samaathi".data, "สมาธิ".data, 300⟩ ]

/-- `AI_IRREGULARS` of src/app.py. -/
def AI_IRREGULARS : List DictEntry :=
  [ ⟨"cay".data, "ใจ".data, 200⟩, ⟨"khray".data, "ใคร".data, 200⟩,
    ⟨"may".data, "ใหม่".data, 200⟩, ⟨"hay".data, "ให้".data, 200⟩,
    ⟨"chay".data, "ใช่".data, 200⟩ ]

/-- `VOWEL_SUGGESTIONS` of src/app.py. -/
def VOWEL_SUGGESTIONS : List DictEntry :=
  [ ⟨"a".data, "อะ".data, 150⟩, ⟨"a".data, "อา".data, 140⟩,
    ⟨"ai".data, "ไอ".data, 130⟩, ⟨"ay".data, "ไอ".data, 130⟩ ]

/-- `DICTIONARY` of src/app.py. -/
def DICTIONARY : List DictEntry :=
  BASE_DICTIONARY ++ COMPOUND_WORDS ++ AI_IRREGULARS ++ VOWEL_SUGGESTIONS

/-- `DICT_LOOKUP` of src/app.py. -/
def dictLookup (k : List Char) : Option (List Char) :=
  (DICTIONARY.reverse.find? (fun e => pyLower e.roman = k)).map DictEntry.thai

/-- `convert_token` of src/app.py. -/
def convertToken (token0 : List Char) : List Char :=
  let token := pyLower token0
  match dictLookup token with
  | some v => v
  | none =>
    let syl := convertSyllable token
    if truthy syl then syl.getD []
    else
      let compound := recursiveSplit token
      if truthy compound then compound.getD []
      else ("?".data)

/-- `alt_onset_suggestions` of src/app.py. -/
def altOnsetSuggestions (buffer : List Char) : List DictEntry :=
  let roman := pyLower buffer
  let core := (splitTone roman).1
  let vba := matchVowel core
  let vowelKey := vba.1
  let before := vba.2.1
  let romanOnset :=
    if vowelKey.isEmpty ∧ before.isEmpty then (matchPref ONSET_KEYS core).1
    else (matchPref ONSET_KEYS before).1
  match assocLookup ALT_ONSET_FORMS romanOnset with
  | none => []
  | some alts =>
    let defaultThai := (assocLookup CONSONANT_ONSET romanOnset).getD []
    let baseThai := convertToken buffer
    if baseThai.isEmpty ∨ baseThai = ("?".data) then []
    else
      (alts.filter (fun alt => alt ≠ defaultThai)).map
        (fun alt => ⟨buffer, pyReplace1 baseThai defaultThai alt, 40⟩)

/-- `alt_coda_suggestions` of src/app.py. -/
def altCodaSuggestions (buffer : List Char) : List DictEntry :=
  let roman := pyLower buffer
  let core := (splitTone roman).1
  let vba := matchVowel core
  let vowelKey := vba.1
  let after := vba.2.2
  if vowelKey.isEmpty then []
  else
    let codaKey := (matchCoda after).1
    match assocLookup ALT_CODA_FORMS codaKey with
    | none => []
    | some alts =>
      let defaultCoda := (assocLookup CODA_MAP codaKey).getD []
      let baseThai := convertToken buffer
      if baseThai.isEmpty ∨ baseThai = ("?".data) ∨ ¬defaultCoda.isSuffixOf baseThai then []
      else
        let baseStem := baseThai.take (baseThai.length - defaultCoda.length)
        (alts.filter (fun alt => alt ≠ defaultCoda)).map
          (fun alt => ⟨buffer, baseStem ++ alt, 35⟩)

/-- The local `simple_distance` defined inside `suggest` of src/app.py
(no lowering and no length cutoff, unlike the one in src/main.py). -/
def simpleDistanceLocal (a b : List Char) : Nat :=
  simpleDistance.mismatchCount a b + Nat.dist a.length b.length

/-- The `fuzzy` candidate source of `suggest` in src/app.py. -/
def fuzzySrc (qc : List Char) : List DictEntry :=
  DICTIONARY.filter (fun e =>
    0 < simpleDistanceLocal qc e.roman ∧ simpleDistanceLocal qc e.roman ≤ 1)

/-- The `exact_prefix` candidate source of `suggest` in src/app.py. -/
def exactPrefSrc (qc : List Char) : List DictEntry :=
  DICTIONARY.filter (fun e => qc.isPrefixOf e.roman)

/-- The base-conversion pseudo-entry source of `suggest` in src/app.py:
`DictEntry(q, base_val, 999)` when `convert_token(q)` is truthy and not `"?"`. -/
def baseSrc (q : List Char) : List DictEntry :=
  let baseVal := convertToken q
  if ¬baseVal.isEmpty ∧ baseVal ≠ ("?".data) then [⟨q, baseVal, 999⟩] else []

/-- The deduplicated `results` list of `suggest` in src/app.py (the five `add`
calls over a shared `seen` set, base conversion first). -/
def suggestResults (buffer : List Char) : List DictEntry :=
  let q := pyLower buffer
  let qc := qCore q
  dedupKey []
    (baseSrc q ++ exactPrefSrc qc ++ fuzzySrc qc ++ altOnsetSuggestions buffer ++
      altCodaSuggestions buffer)

/-- `suggest(buffer, max_suggestions)` of src/app.py. -/
def suggest (buffer : List Char) (maxSuggestions : Int := 8) : List DictEntry :=
  let q := pyLower buffer
  if q.isEmpty then []
  else pySlice maxSuggestions (sortDesc DictEntry.freq (suggestResults buffer))

end App

/-- A Latin letter or ASCII digit (the input alphabet named by the spec's
segmenter-termination property). -/
def isLatinOrDigit (c : Char) : Bool :=
  ('a' ≤ c ∧ c ≤ 'z') ∨ ('A' ≤ c ∧ c ≤ 'Z') ∨ ('0' ≤ c ∧ c ≤ '9')

/-- Prefix length `i` of `r` is a working split point for the segmenter: the
prefix converts as a single syllable and the remainder is empty or itself
segments successfully. -/
def goodAt (r : List Char) (i : Nat) : Prop :=
  truthy (convertSyllable (r.take i)) = true ∧
    (r.drop i = [] ∨ truthy (recursiveSplit (r.drop i)) = true)

instance (r : List Char) (i : Nat) : Decidable (goodAt r i) := by
  unfold goodAt; infer_instance

/-! ## Generic lemmas about the Python-builtin models -/

theorem mem_insertDesc {α : Type} (key : α → Nat) (x a : α) :
    ∀ l : List α, a ∈ insertDesc key x l ↔ a = x ∨ a ∈ l := by
  intro l
  induction l with
  | nil => simp [insertDesc]
  | cons y ys ih =>
    by_cases h : key y ≤ key x
    · simp [insertDesc, h]
    · simp [insertDesc, h, ih]
      tauto

theorem insertDesc_perm {α : Type} (key : α → Nat) (x : α) :
    ∀ l : List α, (insertDesc key x l).Perm (x :: l) := by
  intro l
  induction l with
  | nil => simp [insertDesc]
  | cons y ys ih =>
    by_cases h : key y ≤ key x
    · simp [insertDesc, h]
    · simp only [insertDesc, h, if_false]
      exact (ih.cons y).trans (List.Perm.swap x y ys)

theorem sortDesc_perm {α : Type} (key : α → Nat) :
    ∀ l : List α, (sortDesc key l).Perm l := by
  intro l
  induction l with
  | nil => simp [sortDesc]
  | cons x xs ih =>
    exact (insertDesc_perm key x (sortDesc key xs)).trans (ih.cons x)

theorem mem_sortDesc {α : Type} (key : α → Nat) (a : α) (l : List α) :
    a ∈ sortDesc key l ↔ a ∈ l :=
  (sortDesc_perm key l).mem_iff

theorem insertDesc_sorted {α : Type} (key : α → Nat) (x : α) :
    ∀ l : List α, l.Pairwise (fun a b => key b ≤ key a) →
      (insertDesc key x l).Pairwise (fun a b => key b ≤ key a) := by
  intro l
  induction l with
  | nil => simp [insertDesc]
  | cons y ys ih =>
    intro hs
    rw [List.pairwise_cons] at hs
    by_cases h : key y ≤ key x
    · rw [insertDesc, if_pos h, List.pairwise_cons]
      refine ⟨?_, List.pairwise_cons.mpr hs⟩
      intro b hb
      rcases List.mem_cons.mp hb with rfl | hb
      · exact h
      · exact le_trans (hs.1 b hb) h
    · rw [insertDesc, if_neg h, List.pairwise_cons]
      refine ⟨?_, ih hs.2⟩
      intro b hb
      rcases (mem_insertDesc key x b ys).mp hb with rfl | hb
      · exact le_of_not_le h
      · exact hs.1 b hb

theorem sortDesc_sorted {α : Type} (key : α → Nat) :
    ∀ l : List α, (sortDesc key l).Pairwise (fun a b => key b ≤ key a) := by
  intro l
  induction l with
  | nil => simp [sortDesc]
  | cons x xs ih => exact insertDesc_sorted key x _ ih

theorem insertDesc_front {α : Type} (key : α → Nat) (x : α) (l : List α)
    (h : ∀ y ∈ l, key y ≤ key x) : insertDesc key x l = x :: l := by
  cases l with
  | nil => rfl
  | cons y ys => exact if_pos (h y (List.mem_cons_self y ys))

theorem sortDesc_max_head {α : Type} (key : α → Nat) (x : α) (xs : List α)
    (h : ∀ y ∈ xs, key y ≤ key x) :
    sortDesc key (x :: xs) = x :: sortDesc key xs := by
  rw [sortDesc]
  exact insertDesc_front key x _ (fun y hy => h y ((mem_sortDesc key y xs).mp hy))

theorem insertDesc_filter_ne {α : Type} (key : α → Nat) (x : α) (w : Nat)
    (hx : key x ≠ w) :
    ∀ l : List α, (insertDesc key x l).filter (fun e => key e = w) =
      l.filter (fun e => key e = w) := by
  intro l
  induction l with
  | nil => simp [insertDesc, hx]
  | cons y ys ih =>
    by_cases h : key y ≤ key x
    · rw [insertDesc, if_pos h, List.filter_cons_of_neg (by simp [hx])]
    · rw [insertDesc, if_neg h]
      by_cases hy : key y = w
      · rw [List.filter_cons_of_pos (by simp [hy]),
          List.filter_cons_of_pos (by simp [hy]), ih]
      · rw [List.filter_cons_of_neg (by simp [hy]),
          List.filter_cons_of_neg (by simp [hy]), ih]

theorem insertDesc_filter_eq {α : Type} (key : α → Nat) (x : α) (w : Nat)
    (hx : key x = w) :
    ∀ l : List α, l.Pairwise (fun a b => key b ≤ key a) →
      (insertDesc key x l).filter (fun e => key e = w) =
        x :: l.filter (fun e => key e = w) := by
  intro l
  induction l with
  | nil => simp [insertDesc, hx]
  | cons y ys ih =>
    intro hs
    rw [List.pairwise_cons] at hs
    by_cases h : key y ≤ key x
    · rw [insertDesc, if_pos h, List.filter_cons_of_pos (by simp [hx])]
    · have hy : key y ≠ w := by omega
      rw [insertDesc, if_neg h, List.filter_cons_of_neg (by simp [hy]),
        List.filter_cons_of_neg (by simp [hy]), ih hs.2]

theorem sortDesc_stable {α : Type} (key : α → Nat) (w : Nat) :
    ∀ l : List α, (sortDesc key l).filter (fun e => key e = w) =
      l.filter (fun e => key e = w) := by
  intro l
  induction l with
  | nil => rfl
  | cons x xs ih =>
    by_cases hx : key x = w
    · rw [sortDesc, insertDesc_filter_eq key x w hx _ (sortDesc_sorted key xs), ih,
        List.filter_cons, if_pos (by simp [hx])]
    · rw [sortDesc, insertDesc_filter_ne key x w hx, ih, List.filter_cons,
        if_neg (by simp [hx])]

theorem mem_dedupKey_not_seen (e : DictEntry) :
    ∀ (l : List DictEntry) (seen : List (List Char × List Char)),
      e ∈ dedupKey seen l → (e.roman, e.thai) ∉ seen := by
  intro l
  induction l with
  | nil => intro seen h; simp [dedupKey] at h
  | cons x xs ih =>
    intro seen h
    by_cases hx : (x.roman, x.thai) ∈ seen
    · rw [dedupKey, if_pos hx] at h
      exact ih seen h
    · rw [dedupKey, if_neg hx] at h
      rcases List.mem_cons.mp h with rfl | h
      · exact hx
      · intro hc
        exact (ih _ h) (List.mem_cons_of_mem _ hc)

theorem dedupKey_cons_not_seen (seen : List (List Char × List Char))
    (e : DictEntry) (l : List DictEntry) (h : (e.roman, e.thai) ∉ seen) :
    dedupKey seen (e :: l) = e :: dedupKey ((e.roman, e.thai) :: seen) l := by
  rw [dedupKey, if_neg h]

theorem dedupKey_pairwise :
    ∀ (l : List DictEntry) (seen : List (List Char × List Char)),
      (dedupKey seen l).Pairwise
        (fun a b => (a.roman, a.thai) ≠ (b.roman, b.thai)) := by
  intro l
  induction l with
  | nil => intro seen; simp [dedupKey]
  | cons x xs ih =>
    intro seen
    by_cases hx : (x.roman, x.thai) ∈ seen
    · rw [dedupKey, if_pos hx]; exact ih seen
    · rw [dedupKey, if_neg hx, List.pairwise_cons]
      refine ⟨?_, ih _⟩
      intro b hb hc
      exact (mem_dedupKey_not_seen b xs _ hb) (by rw [← hc]; exact List.mem_cons_self _ _)

theorem pySlice_sublist {α : Type} (k : Int) (l : List α) :
    (pySlice k l).Sublist l := by
  unfold pySlice
  by_cases h : k < 0 <;> simp [h, List.take_sublist]

theorem pySlice_length_le {α : Type} (k : Int) (l : List α) (hk : 0 ≤ k) :
    ((pySlice k l).length : Int) ≤ k := by
  unfold pySlice
  rw [if_neg (by omega)]
  calc ((l.take k.toNat).length : Int) ≤ (k.toNat : Int) := by
        exact_mod_cast List.length_take_le _ _
    _ = k := Int.toNat_of_nonneg hk

theorem pySlice_head_of_pos {α : Type} (k : Int) (x : α) (l : List α)
    (hk : 1 ≤ k) : (pySlice k (x :: l)).head? = some x := by
  unfold pySlice
  rw [if_neg (by omega)]
  have : ∃ m, k.toNat = m + 1 := ⟨k.toNat - 1, by omega⟩
  rcases this with ⟨m, hm⟩
  rw [hm, List.take_succ_cons]
  rfl

/-! ## Pointwise equality of the src/app.py engine with the src/main.py engine -/

theorem app_CONSONANT_ONSET_eq : App.CONSONANT_ONSET = CONSONANT_ONSET := rfl

theorem app_VOWEL_MAP_eq : App.VOWEL_MAP = VOWEL_MAP := rfl

theorem app_TONE_MAP_eq : App.TONE_MAP = TONE_MAP := rfl

theorem app_CODA_MAP_eq : App.CODA_MAP = CODA_MAP := rfl

theorem app_ONSET_KEYS_eq : App.ONSET_KEYS = ONSET_KEYS := rfl

theorem app_VOWEL_KEYS_eq : App.VOWEL_KEYS = VOWEL_KEYS := rfl

theorem app_CODA_KEYS_eq : App.CODA_KEYS = CODA_KEYS := rfl

theorem app_DICTIONARY_eq : App.DICTIONARY = DICTIONARY := rfl

theorem app_splitTone_eq (s : List Char) : App.splitTone s = splitTone s := rfl

theorem app_matchPref_eq :
    ∀ (keys : List (List Char)) (s : List Char),
      App.matchPref keys s = matchPref keys s := by
  intro keys
  induction keys with
  | nil => intro s; rfl
  | cons k rest ih =>
    intro s
    rw [App.matchPref, matchPref]
    by_cases h : k.isPrefixOf s
    · rw [if_pos h, if_pos h]
    · rw [if_neg h, if_neg h, ih]

theorem app_matchVowelAux_eq :
    ∀ (keys : List (List Char)) (s : List Char),
      App.matchVowelAux keys s = matchVowelAux keys s := by
  intro keys
  induction keys with
  | nil => intro s; rfl
  | cons v rest ih =>
    intro s
    rw [App.matchVowelAux, matchVowelAux]
    cases findSub s v with
    | none => exact ih s
    | some idx => rfl

theorem app_matchVowel_eq (s : List Char) : App.matchVowel s = matchVowel s := by
  rw [App.matchVowel, matchVowel, app_VOWEL_KEYS_eq, app_matchVowelAux_eq]

theorem app_matchCodaAux_eq :
    ∀ (keys : List (List Char)) (s : List Char),
      App.matchCodaAux keys s = matchCodaAux keys s := by
  intro keys
  induction keys with
  | nil => intro s; rfl
  | cons k rest ih =>
    intro s
    rw [App.matchCodaAux, matchCodaAux]
    by_cases h : k.isSuffixOf s
    · rw [if_pos h, if_pos h]
    · rw [if_neg h, if_neg h, ih]

theorem app_matchCoda_eq (s : List Char) : App.matchCoda s = matchCoda s := by
  rw [App.matchCoda, matchCoda, app_CODA_KEYS_eq, app_matchCodaAux_eq]

theorem app_assemble_eq (o v t : List Char) :
    App.assemble o v t = assemble o v t := rfl

theorem app_convertSyllable_eq (roman : List Char) :
    App.convertSyllable roman = convertSyllable roman := by
  rw [App.convertSyllable, convertSyllable]
  simp only [app_matchVowel_eq, app_matchPref_eq, app_matchCoda_eq,
    app_ONSET_KEYS_eq, app_CONSONANT_ONSET_eq, app_CODA_MAP_eq,
    app_splitTone_eq, app_assemble_eq]

theorem app_rsTry_eq :
    ∀ (rec rec' : List Char → Option (List Char)),
      (∀ s, rec s = rec' s) →
      ∀ (roman : List Char) (i : Nat),
        App.rsTry rec roman i = rsTry rec' roman i := by
  intro rec rec' hrec roman i
  induction i with
  | zero => rfl
  | succ n ih =>
    match n, ih with
    | 0, _ => rfl
    | m + 1, ih =>
      rw [App.rsTry, rsTry]
      simp only [app_convertSyllable_eq, hrec, ih]

theorem app_rsFuel_eq :
    ∀ (f : Nat) (roman : List Char), App.rsFuel f roman = rsFuel f roman := by
  intro f
  induction f with
  | zero => intro roman; rfl
  | succ g ih =>
    intro roman
    rw [App.rsFuel, rsFuel]
    by_cases h : roman.isEmpty
    · rw [if_pos h, if_pos h]
    · rw [if_neg h, if_neg h, app_rsTry_eq _ _ ih]

theorem app_recursiveSplit_eq (roman : List Char) :
    App.recursiveSplit roman = recursiveSplit roman := by
  rw [App.recursiveSplit, recursiveSplit, app_rsFuel_eq]

theorem app_dictLookup_eq (k : List Char) : App.dictLookup k = dictLookup k := rfl

theorem app_convertToken_eq (token : List Char) :
    App.convertToken token = convertToken token := by
  rw [App.convertToken, convertToken]
  simp only [app_dictLookup_eq, app_convertSyllable_eq, app_recursiveSplit_eq]

/-! ## The segmenter's recursion: the fuel in `rsFuel` is irrelevant beyond the
input length, so `recursive_split` terminates and is characterized by its
prefix loop. -/

theorem rsTry_congr (rec rec' : List Char → Option (List Char))
    (roman : List Char)
    (hrec : ∀ s, s.length < roman.length → rec s = rec' s) :
    ∀ i, i ≤ roman.length → rsTry rec roman i = rsTry rec' roman i := by
  intro i
  induction i with
  | zero => intro _; rfl
  | succ n ih =>
    match n, ih with
    | 0, _ => intro _; rfl
    | m + 1, ih =>
      intro hle
      have hdrop : (roman.drop (m + 2)).length < roman.length := by
        rw [List.length_drop]; omega
      rw [rsTry, rsTry]
      simp only [hrec _ hdrop, ih (by omega)]

theorem rsFuel_congr :
    ∀ (n f g : Nat) (roman : List Char), roman.length ≤ n →
      roman.length < f → roman.length < g → rsFuel f roman = rsFuel g roman := by
  intro n
  induction n with
  | zero =>
    intro f g roman hn hf hg
    match f, g, hf, hg with
    | f' + 1, g' + 1, _, _ =>
      have : roman = [] := List.length_eq_zero.mp (by omega)
      subst this
      rfl
  | succ n ih =>
    intro f g roman hn hf hg
    match f, g, hf, hg with
    | f' + 1, g' + 1, hf, hg =>
      rw [rsFuel, rsFuel]
      by_cases h : roman.isEmpty
      · rw [if_pos h, if_pos h]
      · rw [if_neg h, if_neg h]
        exact rsTry_congr _ _ roman
          (fun s hs => ih f' g' s (by omega) (by omega) (by omega))
          roman.length le_rfl

theorem rsFuel_eq_recursiveSplit (f : Nat) (roman : List Char)
    (h : roman.length < f) : rsFuel f roman = recursiveSplit roman :=
  rsFuel_congr roman.length f (roman.length + 1) roman le_rfl h (Nat.lt_succ_self _)

theorem recursiveSplit_nil : recursiveSplit [] = some [] := rfl

theorem recursiveSplit_eq_rsTry (roman : List Char) (h : ¬roman.isEmpty = true) :
    recursiveSplit roman = rsTry recursiveSplit roman roman.length := by
  rw [recursiveSplit, rsFuel, if_neg h]
  exact rsTry_congr _ _ roman
    (fun s hs => rsFuel_eq_recursiveSplit roman.length s hs) roman.length le_rfl

theorem rsTry_none_iff (r : List Char) :
    ∀ m, (rsTry recursiveSplit r m = none ↔
      ∀ j, 2 ≤ j → j ≤ m → ¬goodAt r j) := by
  intro m
  induction m with
  | zero => simp [rsTry]; omega
  | succ n ih =>
    match n, ih with
    | 0, _ => simp [rsTry]; omega
    | m + 1, ih =>
      by_cases ht : truthy (convertSyllable (r.take (m + 2))) = true
      · by_cases hd : (r.drop (m + 2)).isEmpty = true
        · have hg : goodAt r (m + 2) :=
            ⟨ht, Or.inl (List.isEmpty_iff.mp hd)⟩
          simp only [rsTry, ht, if_true, hd]
          constructor
          · intro h; exact absurd h (by simp)
          · intro h; exact absurd hg (h (m + 2) (by omega) le_rfl)
        · by_cases hrr : truthy (recursiveSplit (r.drop (m + 2))) = true
          · have hg : goodAt r (m + 2) := ⟨ht, Or.inr hrr⟩
            simp only [rsTry, ht, if_true, hd, if_false, hrr]
            constructor
            · intro h; exact absurd h (by simp)
            · intro h; exact absurd hg (h (m + 2) (by omega) le_rfl)
          · have hg : ¬goodAt r (m + 2) := by
              intro hg
              rcases hg.2 with hnil | htr
              · exact hd (List.isEmpty_iff.mpr hnil)
              · exact hrr htr
            simp only [rsTry, ht, if_true, eq_false_of_ne_true hd,
              eq_false_of_ne_true hrr, Bool.false_eq_true, if_false]
            rw [ih]
            constructor
            · intro h j h2 hj
              rcases Nat.lt_or_ge j (m + 2) with hlt | hge
              · exact h j h2 (by omega)
              · have : j = m + 2 := by omega
                subst this; exact hg
            · intro h j h2 hj
              exact h j h2 (by omega)
      · have hg : ¬goodAt r (m + 2) := fun hg => ht hg.1
        rw [rsTry]
        simp only [eq_false_of_ne_true ht, Bool.false_eq_true, if_false]
        rw [ih]
        constructor
        · intro h j h2 hj
          rcases Nat.lt_or_ge j (m + 2) with hlt | hge
          · exact h j h2 (by omega)
          · have : j = m + 2 := by omega
            subst this; exact hg
        · intro h j h2 hj
          exact h j h2 (by omega)

theorem rsTry_first_good (r : List Char) :
    ∀ m j, 2 ≤ j → j ≤ m → goodAt r j →
      (∀ k, j < k → k ≤ m → ¬goodAt r k) →
      rsTry recursiveSplit r m =
        some ((convertSyllable (r.take j)).getD [] ++
          (recursiveSplit (r.drop j)).getD []) := by
  intro m
  induction m with
  | zero => intro j h2 hj; omega
  | succ n ih =>
    match n, ih with
    | 0, _ => intro j h2 hj; omega
    | m + 1, ih =>
      intro j h2 hj hg hmax
      rcases Nat.lt_or_ge j (m + 2) with hlt | hge
      · have hng : ¬goodAt r (m + 2) := hmax (m + 2) (by omega) le_rfl
        have step : rsTry recursiveSplit r (m + 2) = rsTry recursiveSplit r (m + 1) := by
          by_cases ht : truthy (convertSyllable (r.take (m + 2))) = true
          · have hd : (r.drop (m + 2)).isEmpty = false := by
              by_cases h : (r.drop (m + 2)).isEmpty = true
              · exact absurd ⟨ht, Or.inl (List.isEmpty_iff.mp h)⟩ hng
              · exact eq_false_of_ne_true h
            have hrr : truthy (recursiveSplit (r.drop (m + 2))) = false := by
              by_cases h : truthy (recursiveSplit (r.drop (m + 2))) = true
              · exact absurd ⟨ht, Or.inr h⟩ hng
              · exact eq_false_of_ne_true h
            simp only [rsTry, ht, if_true, hd, hrr, Bool.false_eq_true, if_false]
          · simp only [rsTry, eq_false_of_ne_true ht, Bool.false_eq_true, if_false]
        rw [step]
        exact ih j h2 (by omega) hg (fun k hk1 hk2 => hmax k hk1 (by omega))
      · have hj' : j = m + 2 := by omega
        subst hj'
        by_cases hd : (r.drop (m + 2)).isEmpty = true
        · have hnil : r.drop (m + 2) = [] := List.isEmpty_iff.mp hd
          simp only [rsTry, hg.1, if_true, hd]
          rw [hnil, recursiveSplit_nil]
          simp
        · have hrr : truthy (recursiveSplit (r.drop (m + 2))) = true := by
            rcases hg.2 with hnil | htr
            · exact absurd (List.isEmpty_iff.mpr hnil) hd
            · exact htr
          simp only [rsTry, hg.1, if_true, eq_false_of_ne_true hd,
            Bool.false_eq_true, if_false, hrr]

theorem rsTry_some_decomp (r : List Char) :
    ∀ m s, rsTry recursiveSplit r m = some s →
      ∃ j, 2 ≤ j ∧ j ≤ m ∧ goodAt r j ∧
        s = (convertSyllable (r.take j)).getD [] ++
          (recursiveSplit (r.drop j)).getD [] := by
  intro m
  induction m with
  | zero => intro s h; simp [rsTry] at h
  | succ n ih =>
    match n, ih with
    | 0, _ => intro s h; simp [rsTry] at h
    | m + 1, ih =>
      intro s h
      by_cases ht : truthy (convertSyllable (r.take (m + 2))) = true
      · by_cases hd : (r.drop (m + 2)).isEmpty = true
        · have hnil : r.drop (m + 2) = [] := List.isEmpty_iff.mp hd
          simp only [rsTry, ht, if_true, hd] at h
          refine ⟨m + 2, by omega, le_rfl, ⟨ht, Or.inl hnil⟩, ?_⟩
          rw [hnil, recursiveSplit_nil]
          simp only [Option.getD_some, List.append_nil]
          exact (Option.some.inj h).symm
        · by_cases hrr : truthy (recursiveSplit (r.drop (m + 2))) = true
          · simp only [rsTry, ht, if_true, eq_false_of_ne_true hd,
              Bool.false_eq_true, if_false, hrr] at h
            exact ⟨m + 2, by omega, le_rfl, ⟨ht, Or.inr hrr⟩, (Option.some.inj h).symm⟩
          · simp only [rsTry, ht, if_true, eq_false_of_ne_true hd,
              eq_false_of_ne_true hrr, Bool.false_eq_true, if_false] at h
            rcases ih s h with ⟨j, h2, hj, hg, hv⟩
            exact ⟨j, h2, by omega, hg, hv⟩
      · simp only [rsTry, eq_false_of_ne_true ht, Bool.false_eq_true, if_false] at h
        rcases ih s h with ⟨j, h2, hj, hg, hv⟩
        exact ⟨j, h2, by omega, hg, hv⟩

/-- Any successful `recursive_split` output decomposes the input into syllable
pieces of length at least 2, each independently convertible, whose conversions
concatenate to the output. -/
theorem recursiveSplit_decomp :
    ∀ (n : Nat) (r s : List Char), r.length ≤ n → recursiveSplit r = some s →
      ∃ pieces : List (List Char), pieces.flatten = r ∧
        (∀ p ∈ pieces, truthy (convertSyllable p) = true ∧ 2 ≤ p.length) ∧
        s = (pieces.map (fun p => (convertSyllable p).getD [])).flatten := by
  intro n
  induction n with
  | zero =>
    intro r s hn hr
    have : r = [] := List.length_eq_zero.mp (by omega)
    subst this
    rw [recursiveSplit_nil] at hr
    exact ⟨[], rfl, by simp, by simpa using (Option.some.inj hr)⟩
  | succ n ih =>
    intro r s hn hr
    by_cases hre : r.isEmpty = true
    · have : r = [] := List.isEmpty_iff.mp hre
      subst this
      rw [recursiveSplit_nil] at hr
      exact ⟨[], rfl, by simp, by simpa using (Option.some.inj hr)⟩
    · rw [recursiveSplit_eq_rsTry r hre] at hr
      rcases rsTry_some_decomp r r.length s hr with ⟨j, h2, hj, hg, hv⟩
      rcases hg.2 with hnil | htr
      · refine ⟨[r.take j], ?_, ?_, ?_⟩
        · simp only [List.flatten_cons, List.flatten_nil, List.append_nil]
          exact List.take_of_length_le (List.drop_eq_nil_iff.mp hnil)
        · intro p hp
          rcases List.mem_singleton.mp hp with rfl
          exact ⟨hg.1, by rw [List.length_take]; omega⟩
        · rw [hv, hnil, recursiveSplit_nil]
          simp
      · have hsome : ∃ s2, recursiveSplit (r.drop j) = some s2 := by
          cases hcase : recursiveSplit (r.drop j) with
          | none => rw [hcase] at htr; simp [truthy] at htr
          | some s2 => exact ⟨s2, rfl⟩
        rcases hsome with ⟨s2, hs2⟩
        have hdl : (r.drop j).length ≤ n := by
          rw [List.length_drop]
          have hpos : 0 < r.length := List.length_pos.mpr (by
            intro hc; rw [hc] at hre; exact hre rfl)
          omega
        rcases ih (r.drop j) s2 hdl hs2 with ⟨pieces, hjoin, hall, hs⟩
        refine ⟨r.take j :: pieces, ?_, ?_, ?_⟩
        · rw [List.flatten_cons, hjoin, List.take_append_drop]
        · intro p hp
          rcases List.mem_cons.mp hp with rfl | hp
          · exact ⟨hg.1, by rw [List.length_take]; omega⟩
          · exact hall p hp
        · rw [hv, hs2, hs]
          simp [List.flatten_cons]

/-- Every value of the onset-consonant table has at most two glyphs, so the
two-glyph cluster branches of `convert_syllable` produce the whole onset. -/
theorem onset_lookup_len (k : List Char) :
    ((assocLookup CONSONANT_ONSET k).getD []).length ≤ 2 := by
  rw [assocLookup]
  cases hf : CONSONANT_ONSET.find? (fun p => p.1 = k) with
  | none => simp
  | some pr =>
    have hm : pr ∈ CONSONANT_ONSET := List.mem_of_find?_eq_some hf
    have hall : ∀ p ∈ CONSONANT_ONSET, p.2.length ≤ 2 := by decide
    simpa using hall pr hm

/-! ## Claim theorems -/

/-- C10: the two duplicated engine variants agree on token conversion: for
every input string, `convert_token` in src/main.py and `convert_token` in
src/app.py return the same string, and their syllable converters, segmenters
and dictionaries are extensionally equal. -/
theorem C10_variants_agree :
    (∀ s, convertToken s = App.convertToken s) ∧
    (∀ s, convertSyllable s = App.convertSyllable s) ∧
    (∀ s, recursiveSplit s = App.recursiveSplit s) ∧
    DICTIONARY = App.DICTIONARY :=
  ⟨fun s => (app_convertToken_eq s).symm, fun s => (app_convertSyllable_eq s).symm,
   fun s => (app_recursiveSplit_eq s).symm, app_DICTIONARY_eq.symm⟩

/-- C2 (counterexample): the dictionary entry `("a", "อะ", 150)` is in the
dictionary sequence, yet `convertToken("a")` returns `"อา"` — the later entry
`("a", "อา", 140)` wins in the exact-match index — so exact lookup does not
return `t` for *every* listed entry when several share the same romanForm. -/
theorem C2_counterexample :
    (⟨"a".data, "อะ".data, 150⟩ : DictEntry) ∈ DICTIONARY ∧
    convertToken ("a".data) = ("อา".data) ∧
    ("อา".data : List Char) ≠ ("อะ".data) :=
  ⟨by decide, by decide, by decide⟩

/-- C2 (amended): for every dictionary entry `(r, t, w)` other than the
shadowed entry `("a", "อะ", 150)`, `convertToken(r)` (after lowering) returns
`t` exactly: dictionary lookup short-circuits rule-based conversion, and the
exact-match index keeps the last entry for each lower-cased romanForm. -/
theorem C2_dict_shortcircuit :
    ∀ e ∈ DICTIONARY, e ≠ ⟨"a".data, "อะ".data, 150⟩ →
      convertToken e.roman = e.thai := by decide

/-- Witness for C2: the amended claim applied to the `sawatdii` entry. -/
theorem C2_witness :
    (⟨"sawatdii".data, "สวัสดี".data, 1000⟩ : DictEntry) ∈ DICTIONARY ∧
    (⟨"sawatdii".data, "สวัสดี".data, 1000⟩ : DictEntry) ≠ ⟨"a".data, "อะ".data, 150⟩ ∧
    convertToken (("sawatdii".data : List Char)) = ("สวัสดี".data) :=
  ⟨by decide, by decide,
    C2_dict_shortcircuit ⟨"sawatdii".data, "สวัสดี".data, 1000⟩ (by decide) (by decide)⟩

/-- C3: `convertToken` is total (never raises) and returns exactly one of,
tried in this fixed priority order: the exact-match index value for the
lower-cased token; else the single-syllable conversion when it is truthy;
else the segmenter's concatenation when it is truthy; else the sentinel `"?"`. -/
theorem C3_dispatch (t : List Char) :
    (∃ v, dictLookup (pyLower t) = some v ∧ convertToken t = v) ∨
    (dictLookup (pyLower t) = none ∧ truthy (convertSyllable (pyLower t)) = true ∧
      convertToken t = (convertSyllable (pyLower t)).getD []) ∨
    (dictLookup (pyLower t) = none ∧ truthy (convertSyllable (pyLower t)) = false ∧
      truthy (recursiveSplit (pyLower t)) = true ∧
      convertToken t = (recursiveSplit (pyLower t)).getD []) ∨
    (dictLookup (pyLower t) = none ∧ truthy (convertSyllable (pyLower t)) = false ∧
      truthy (recursiveSplit (pyLower t)) = false ∧ convertToken t = ("?".data)) := by
  cases hd : dictLookup (pyLower t) with
  | some v =>
    left
    exact ⟨v, rfl, by rw [convertToken]; simp only [hd]⟩
  | none =>
    right
    by_cases hs : truthy (convertSyllable (pyLower t)) = true
    · left
      exact ⟨rfl, hs, by rw [convertToken]; simp only [hd, hs, if_true]⟩
    · right
      by_cases hr : truthy (recursiveSplit (pyLower t)) = true
      · left
        refine ⟨rfl, eq_false_of_ne_true hs, hr, ?_⟩
        rw [convertToken]
        simp only [hd, eq_false_of_ne_true hs, Bool.false_eq_true, if_false, hr, if_true]
      · right
        refine ⟨rfl, eq_false_of_ne_true hs, eq_false_of_ne_true hr, ?_⟩
        rw [convertToken]
        simp only [hd, eq_false_of_ne_true hs, eq_false_of_ne_true hr,
          Bool.false_eq_true, if_false]

/-- C9: for every key of the onset-consonant table, converting the key plus
tone digit `1` yields exactly the table's glyph(s), with no tone mark and
nothing else appended. -/
theorem C9_onset_tone1 :
    ∀ p ∈ CONSONANT_ONSET, convertToken (p.1 ++ ("1".data)) = p.2 := by decide

/-- Witness for C9: the claim applied to the `kh` table row. -/
theorem C9_witness :
    (("kh".data, "ข".data) : List Char × List Char) ∈ CONSONANT_ONSET ∧
    convertToken (("kh".data : List Char) ++ ("1".data)) = ("ข".data) :=
  ⟨by decide, C9_onset_tone1 (("kh".data, "ข".data)) (by decide)⟩

/-- C6 (counterexample): with buffer `"er"`, the dictionary entry
`("er", "เออ", 120)` is at distance 0 (hence within distance 1) of the
tone-stripped core, yet the fuzzy candidate source excludes it — the code
requires `0 < distance`, so exact matches are not fuzzy candidates. -/
theorem C6_counterexample :
    (⟨"er".data, "เออ".data, 120⟩ : DictEntry) ∈ DICTIONARY ∧
    simpleDistance (qCore (pyLower ("er".data))) ("er".data) ≤ 1 ∧
    (⟨"er".data, "เออ".data, 120⟩ : DictEntry) ∉
      fuzzySrc (qCore (pyLower ("er".data))) :=
  ⟨by decide, by decide, by decide⟩

/-- C6 (amended): the fuzzy candidate source of `suggest` consists exactly of
the dictionary entries whose romanForm is at distance exactly 1 (not 0) of the
buffer's tone-stripped core, where the distance is infinite (entry excluded)
when the lengths differ by more than 2 and otherwise equals the count of
mismatched characters at aligned positions up to the shorter length plus the
absolute length difference. -/
theorem C6_fuzzy_membership (buffer : List Char) (e : DictEntry) :
    e ∈ fuzzySrc (qCore (pyLower buffer)) ↔
      e ∈ DICTIONARY ∧
      Nat.dist (pyLower (qCore (pyLower buffer))).length (pyLower e.roman).length ≤ 2 ∧
      simpleDistance.mismatchCount (pyLower (qCore (pyLower buffer)))
          (pyLower e.roman) +
        Nat.dist (pyLower (qCore (pyLower buffer))).length (pyLower e.roman).length
        = 1 := by
  rw [fuzzySrc, List.mem_filter]
  have harith :
      (0 < simpleDistance (qCore (pyLower buffer)) e.roman ∧
        simpleDistance (qCore (pyLower buffer)) e.roman ≤ 1) ↔
      (Nat.dist (pyLower (qCore (pyLower buffer))).length (pyLower e.roman).length ≤ 2 ∧
        simpleDistance.mismatchCount (pyLower (qCore (pyLower buffer)))
            (pyLower e.roman) +
          Nat.dist (pyLower (qCore (pyLower buffer))).length (pyLower e.roman).length
          = 1) := by
    rw [simpleDistance]
    by_cases hcut :
        2 < Nat.dist (pyLower (qCore (pyLower buffer))).length (pyLower e.roman).length
    · rw [if_pos hcut]
      constructor
      · intro h; omega
      · intro h; omega
    · rw [if_neg hcut]
      constructor
      · intro h; omega
      · intro h; omega
  rw [decide_eq_true_eq, harith]

/-- C4: for a syllable whose tokenization finds a vowel key and a coda, the
three structural overrides replace the general assembly rule: vowel key `o`
yields onset + tone + coda with no vowel glyph; vowel key `a` yields onset +
the diacritic `ั` + tone + coda; vowel key `er`/`oee` with a coda glyph among
{ม, น, ง} yields `เ` + onset + the diacritic `ิ` + tone + coda.  The onset here
is the (possibly two-glyph) defaulted onset cluster, so for a cluster the
diacritic and tone attach after the second consonant glyph. -/
theorem C4_structural_overrides (roman core tone v before after coda : List Char)
    (hne : pyLower roman ≠ [])
    (hsplit : splitTone (pyLower roman) = (core, tone))
    (hvowel : matchVowel core = (v, before, after))
    (hcoda : (assocLookup CODA_MAP ((matchCoda after).1)).getD [] = coda)
    (onset : List Char)
    (honset :
      (let o0 := (assocLookup CONSONANT_ONSET ((matchPref ONSET_KEYS before).1)).getD []
       if o0.isEmpty then ("ก".data) else o0) = onset) :
    (v = ("o".data) → coda ≠ [] →
      convertSyllable roman = some (onset ++ tone ++ coda)) ∧
    (v = ("a".data) → coda ≠ [] →
      convertSyllable roman = some (onset ++ ("ั".data) ++ tone ++ coda)) ∧
    ((v = ("er".data) ∨ v = ("oee".data)) →
      (coda = ("ม".data) ∨ coda = ("น".data) ∨ coda = ("ง".data)) →
      convertSyllable roman = some (("เ".data) ++ onset ++ ("ิ".data) ++ tone ++ coda)) := by
  have hem : (pyLower roman).isEmpty = false := by
    rw [Bool.eq_false_iff]
    intro h
    exact hne (List.isEmpty_iff.mp h)
  have hlen : onset.length ≤ 2 := by
    rw [← honset]
    by_cases h : ((assocLookup CONSONANT_ONSET
        ((matchPref ONSET_KEYS before).1)).getD []).isEmpty = true
    · rw [if_pos h]; decide
    · rw [if_neg h]; exact onset_lookup_len _
  have htake : onset.take 2 = onset := List.take_of_length_le hlen
  refine ⟨?_, ?_, ?_⟩
  · intro hv hc
    rw [convertSyllable]
    simp only [hem, Bool.false_eq_true, if_false, hsplit, hvowel, hv, hcoda, honset]
    rw [if_neg (by decide), if_pos ⟨trivial, fun h => hc (List.isEmpty_iff.mp h)⟩]
    rw [htake]
    by_cases h1 : 1 < onset.length
    · rw [if_pos h1]
    · rw [if_neg h1]
  · intro hv hc
    rw [convertSyllable]
    simp only [hem, Bool.false_eq_true, if_false, hsplit, hvowel, hv, hcoda, honset]
    rw [if_neg (by decide), if_neg (fun h => absurd h.1 (by decide)),
      if_pos ⟨trivial, fun h => hc (List.isEmpty_iff.mp h)⟩]
    rw [htake]
    by_cases h1 : 1 < onset.length
    · rw [if_pos h1]
    · rw [if_neg h1]
  · intro hv hc
    have hcm : coda ≠ [] := by
      rcases hc with rfl | rfl | rfl <;> decide
    rcases hv with rfl | rfl
    · rw [convertSyllable]
      simp only [hem, Bool.false_eq_true, if_false, hsplit, hvowel, hcoda, honset]
      rw [if_neg (by decide), if_neg (fun h => absurd h.1 (by decide)),
        if_neg (fun h => absurd h.1 (by decide)), if_pos ⟨Or.inl trivial, hc⟩]
      rw [htake]
      by_cases h1 : 1 < onset.length
      · rw [if_pos h1]
      · rw [if_neg h1]
    · rw [convertSyllable]
      simp only [hem, Bool.false_eq_true, if_false, hsplit, hvowel, hcoda, honset]
      rw [if_neg (by decide), if_neg (fun h => absurd h.1 (by decide)),
        if_neg (fun h => absurd h.1 (by decide)), if_pos ⟨Or.inr trivial, hc⟩]
      rw [htake]
      by_cases h1 : 1 < onset.length
      · rw [if_pos h1]
      · rw [if_neg h1]

/-- Witness for C4: the three overrides applied to the concrete syllables
`kon1` (implicit `o`), `kan2` (`a` rendered as `ั`), and `dern1`
(`er` + nasal final). -/
theorem C4_witness :
    convertSyllable ("kon1".data) = some (("ก".data) ++ ("".data) ++ ("น".data)) ∧
    convertSyllable ("kan2".data) =
      some (("ก".data) ++ ("ั".data) ++ ("่".data) ++ ("น".data)) ∧
    convertSyllable ("dern1".data) =
      some (("เ".data) ++ ("ด".data) ++ ("ิ".data) ++ ("".data) ++ ("น".data)) :=
  ⟨(C4_structural_overrides ("kon1".data) ("kon".data) ("".data) ("o".data)
      ("k".data) ("n".data) ("น".data) (by decide) (by decide) (by decide)
      (by decide) ("ก".data) (by decide)).1 rfl (by decide),
   (C4_structural_overrides ("kan2".data) ("kan".data) ("่".data) ("a".data)
      ("k".data) ("n".data) ("น".data) (by decide) (by decide) (by decide)
      (by decide) ("ก".data) (by decide)).2.1 rfl (by decide),
   (C4_structural_overrides ("dern1".data) ("dern".data) ("".data) ("er".data)
      ("d".data) ("n".data) ("น".data) (by decide) (by decide) (by decide)
      (by decide) ("ด".data) (by decide)).2.2 (Or.inl rfl) (Or.inr (Or.inl rfl))⟩

/-- C5: for every non-empty token the segmenter behaves as the greedy
longest-prefix backtracking search: the empty remainder is a successful base
case returning the empty string; the result is `Fail` (`none`) exactly when no
prefix length from `len(token)` down to 2 is a working split point (a prefix
whose syllable conversion succeeds and whose remainder is empty or itself
segments); and for the longest working split point `i` the result is the
prefix's conversion concatenated with the remainder's segmentation. -/
theorem C5_segmenter_search (r : List Char) (hne : r ≠ []) :
    recursiveSplit ([] : List Char) = some [] ∧
    (recursiveSplit r = none ↔ ∀ i, 2 ≤ i → i ≤ r.length → ¬goodAt r i) ∧
    (∀ i, 2 ≤ i → i ≤ r.length → goodAt r i →
      (∀ j, i < j → j ≤ r.length → ¬goodAt r j) →
      recursiveSplit r = some ((convertSyllable (r.take i)).getD [] ++
        (recursiveSplit (r.drop i)).getD [])) := by
  have hre : ¬r.isEmpty = true := fun h => hne (List.isEmpty_iff.mp h)
  refine ⟨recursiveSplit_nil, ?_, ?_⟩
  · rw [recursiveSplit_eq_rsTry r hre]
    exact rsTry_none_iff r r.length
  · intro i h2 hi hg hmax
    rw [recursiveSplit_eq_rsTry r hre]
    exact rsTry_first_good r r.length i h2 hi hg hmax

/-- Witness for C5: the characterization applied to the concrete token
`kaka`. -/
theorem C5_witness :
    ("kaka".data : List Char) ≠ [] ∧
    (recursiveSplit ([] : List Char) = some [] ∧
      (recursiveSplit ("kaka".data) = none ↔
        ∀ i, 2 ≤ i → i ≤ ("kaka".data : List Char).length → ¬goodAt ("kaka".data) i) ∧
      (∀ i, 2 ≤ i → i ≤ ("kaka".data : List Char).length → goodAt ("kaka".data) i →
        (∀ j, i < j → j ≤ ("kaka".data : List Char).length → ¬goodAt ("kaka".data) j) →
        recursiveSplit ("kaka".data) =
          some ((convertSyllable (("kaka".data : List Char).take i)).getD [] ++
            (recursiveSplit (("kaka".data : List Char).drop i)).getD []))) :=
  ⟨by decide, C5_segmenter_search ("kaka".data) (by decide)⟩

/-- C7: for any input of Latin letters and digits of length at most 30 the
segmenter terminates — any fuel beyond the bound 30 computes the same result,
so the recursion bottoms out — and it returns either `Fail` (`none`) or a
concatenation of independently convertible syllables. -/
theorem C7_segmenter_terminates (r : List Char)
    (_hchars : ∀ c ∈ r, isLatinOrDigit c = true) (hlen : r.length ≤ 30) :
    (∀ f, 30 < f → rsFuel f r = recursiveSplit r) ∧
    (recursiveSplit r = none ∨
      ∃ (s : List Char) (pieces : List (List Char)), recursiveSplit r = some s ∧ pieces.flatten = r ∧
        (∀ p ∈ pieces, truthy (convertSyllable p) = true ∧ 2 ≤ p.length) ∧
        s = (pieces.map (fun p => (convertSyllable p).getD [])).flatten) := by
  constructor
  · intro f hf
    exact rsFuel_eq_recursiveSplit f r (by omega)
  · cases hc : recursiveSplit r with
    | none => exact Or.inl rfl
    | some s =>
      rcases recursiveSplit_decomp r.length r s le_rfl hc with ⟨pieces, h1, h2, h3⟩
      exact Or.inr ⟨s, pieces, rfl, h1, h2, h3⟩

/-- Witness for C7: the termination-and-shape property applied to the concrete
input `sawat`. -/
theorem C7_witness :
    (∀ c ∈ ("sawat".data : List Char), isLatinOrDigit c = true) ∧
    ("sawat".data : List Char).length ≤ 30 ∧
    ((∀ f, 30 < f → rsFuel f ("sawat".data) = recursiveSplit ("sawat".data)) ∧
      (recursiveSplit ("sawat".data) = none ∨
        ∃ (s : List Char) (pieces : List (List Char)), recursiveSplit ("sawat".data) = some s ∧
          pieces.flatten = ("sawat".data : List Char) ∧
          (∀ p ∈ pieces, truthy (convertSyllable p) = true ∧ 2 ≤ p.length) ∧
          s = (pieces.map (fun p => (convertSyllable p).getD [])).flatten)) :=
  ⟨by decide, by decide, C7_segmenter_terminates ("sawat".data) (by decide) (by decide)⟩

/-- C1 (counterexample): the claim fails on both `suggest` variants.  In
src/app.py, for buffer `sawatdi` the base conversion succeeds (`เสา` ≠ `?`),
yet the first element of `suggest` is the dictionary entry
`("sawatdii", "สวัสดี", 1000)` — whose weight 1000 exceeds the pseudo-entry's
999 — and it is not an identical pair (its roman form differs from the
buffer).  In src/main.py, for buffer `ka` the base conversion succeeds
(`กะ` ≠ `?`), yet `suggest` never synthesizes the pseudo-entry at all: the
whole result is the single alternate-onset entry of weight 40. -/
theorem C1_counterexample :
    App.convertToken (pyLower ("sawatdi".data)) = ("เสา".data) ∧
    ("เสา".data : List Char) ≠ ("?".data) ∧
    (App.suggest ("sawatdi".data) 8).head? =
      some ⟨"sawatdii".data, "สวัสดี".data, 1000⟩ ∧
    ("sawatdii".data : List Char) ≠ pyLower ("sawatdi".data) ∧
    convertToken (pyLower ("ka".data)) = ("กะ".data) ∧
    ("กะ".data : List Char) ≠ ("?".data) ∧
    suggest ("ka".data) 8 = [⟨"ka".data, "ไกะ".data, 40⟩] :=
  ⟨by decide, by decide, by decide, by decide, by decide, by decide, by decide⟩

/-- C1 (amended): only the src/app.py variant synthesizes the base-conversion
pseudo-entry (lower-cased buffer, `convertToken` of it, fixed weight 999), and
it is inserted before every other candidate source, so it is the first element
of `suggest(buffer, limit)` whenever the base conversion succeeds, `limit ≥ 1`,
and every merged candidate has weight at most 999; a dictionary candidate of
weight above 999 (the weight-1000 `sawatdii` entry) can precede it, and the
src/main.py variant omits the pseudo-entry entirely. -/
theorem C1_pseudo_entry_first (buffer : List Char) (limit : Int)
    (hbase : ¬(App.convertToken (pyLower buffer)).isEmpty = true ∧
      App.convertToken (pyLower buffer) ≠ ("?".data))
    (hlimit : 1 ≤ limit)
    (hmax : ∀ e ∈ App.suggestResults buffer, e.freq ≤ 999) :
    (App.suggest buffer limit).head? =
      some ⟨pyLower buffer, App.convertToken (pyLower buffer), 999⟩ := by
  have hq : (pyLower buffer).isEmpty = false := by
    rw [Bool.eq_false_iff]
    intro h
    have h0 : pyLower buffer = [] := List.isEmpty_iff.mp h
    rw [h0] at hbase
    exact hbase.2 (by decide)
  have hR : App.suggestResults buffer =
      (⟨pyLower buffer, App.convertToken (pyLower buffer), 999⟩ : DictEntry) ::
        dedupKey [(pyLower buffer, App.convertToken (pyLower buffer))]
          (App.exactPrefSrc (qCore (pyLower buffer)) ++
            App.fuzzySrc (qCore (pyLower buffer)) ++
            App.altOnsetSuggestions buffer ++ App.altCodaSuggestions buffer) := by
    rw [App.suggestResults, App.baseSrc, if_pos hbase, List.singleton_append]
    simp only [List.cons_append]
    rw [dedupKey_cons_not_seen _ _ _ (List.not_mem_nil _)]
  have hle : ∀ y ∈ dedupKey [(pyLower buffer, App.convertToken (pyLower buffer))]
      (App.exactPrefSrc (qCore (pyLower buffer)) ++
        App.fuzzySrc (qCore (pyLower buffer)) ++
        App.altOnsetSuggestions buffer ++ App.altCodaSuggestions buffer),
      DictEntry.freq y ≤ 999 := by
    intro y hy
    apply hmax
    rw [hR]
    exact List.mem_cons_of_mem _ hy
  rw [App.suggest]
  simp only [hq, Bool.false_eq_true, if_false]
  rw [hR, sortDesc_max_head DictEntry.freq _ _ hle]
  exact pySlice_head_of_pos limit _ _ hlimit

/-- Witness for C1: the amended claim applied to buffer `ka` with the default
limit 8. -/
theorem C1_witness :
    (¬(App.convertToken (pyLower ("ka".data))).isEmpty = true ∧
      App.convertToken (pyLower ("ka".data)) ≠ ("?".data)) ∧
    (1 : Int) ≤ 8 ∧
    (∀ e ∈ App.suggestResults ("ka".data), e.freq ≤ 999) ∧
    (App.suggest ("ka".data) 8).head? =
      some ⟨pyLower ("ka".data), App.convertToken (pyLower ("ka".data)), 999⟩ :=
  ⟨⟨by decide, by decide⟩, by decide, by decide,
   C1_pseudo_entry_first ("ka".data) 8 ⟨by decide, by decide⟩ (by decide) (by decide)⟩

/-- C8 (counterexample): `suggest` does not return a list of length at most
`limit` for *every* limit: for the negative limit `-1` Python's slice
`results[:-1]` drops one element from the end instead, and the resulting
length (0 for buffer `ka`) is not at most `-1`. -/
theorem C8_counterexample :
    ¬(((suggest ("ka".data) (-1)).length : Int) ≤ (-1 : Int)) := by decide

/-- C8 (amended): `suggest` never raises (it is a total function); it returns
`[]` on the empty buffer; its result has no two entries with the same
(romanForm, thaiForm) pair and is sorted by weight in descending order, the
sort being stable with respect to candidate insertion order; and for every
non-negative `limit` the result has length at most `limit` (for negative
`limit` Python slicing instead drops `-limit` trailing elements). -/
theorem C8_suggest_contract (buffer : List Char) (limit : Int) :
    (buffer = [] → suggest buffer limit = []) ∧
    (suggest buffer limit).Pairwise
      (fun a b => (a.roman, a.thai) ≠ (b.roman, b.thai)) ∧
    (suggest buffer limit).Pairwise (fun a b => b.freq ≤ a.freq) ∧
    (∀ w, (sortDesc DictEntry.freq (suggestResults buffer)).filter
        (fun e => e.freq = w) =
      (suggestResults buffer).filter (fun e => e.freq = w)) ∧
    (0 ≤ limit → ((suggest buffer limit).length : Int) ≤ limit) := by
  have hkeys : (suggestResults buffer).Pairwise
      (fun a b => (a.roman, a.thai) ≠ (b.roman, b.thai)) := by
    rw [suggestResults]
    exact dedupKey_pairwise _ _
  refine ⟨?_, ?_, ?_, fun w => sortDesc_stable DictEntry.freq w _, ?_⟩
  · intro h
    subst h
    rfl
  · rw [suggest]
    by_cases hq : (pyLower buffer).isEmpty = true
    · simp [hq]
    · simp only [hq, Bool.false_eq_true, if_false]
      exact List.Pairwise.sublist (pySlice_sublist limit _)
        ((List.Perm.pairwise_iff (fun h hc => h hc.symm)
          (sortDesc_perm DictEntry.freq _)).mpr hkeys)
  · rw [suggest]
    by_cases hq : (pyLower buffer).isEmpty = true
    · simp [hq]
    · simp only [hq, Bool.false_eq_true, if_false]
      exact List.Pairwise.sublist (pySlice_sublist limit _)
        (sortDesc_sorted DictEntry.freq _)
  · intro hlim
    rw [suggest]
    by_cases hq : (pyLower buffer).isEmpty = true
    · simp only [hq, if_true]
      simpa using hlim
    · simp only [hq, Bool.false_eq_true, if_false]
      exact pySlice_length_le limit _ hlim

/-- Witness for C8: the amended contract applied at the empty buffer and at
buffer `ka` with the default limit 8. -/
theorem C8_witness :
    suggest ([] : List Char) 8 = [] ∧
    (0 : Int) ≤ 8 ∧ ((suggest ("ka".data) 8).length : Int) ≤ 8 :=
  ⟨(C8_suggest_contract [] 8).1 rfl, by decide,
   (C8_suggest_contract ("ka".data) 8).2.2.2.2 (by decide)⟩

end Yuipa
